import Mathlib

/-!
Verification of the camera-stream relay subsystem of `miloco_server`
(`utils/ffmpeg_streamer.py`, `service/miot_service.py`,
`controller/miot_controller.py`), as a shallow embedding in Lean.

Machine integers are modelled as `Nat`/`Int`; wall-clock times as `ℚ`
(seconds); the float division in the freeze watchdog as exact rational
division; the OS pipe as an environment function answering each
`os.write` attempt.
-/

namespace Miloco

/-! ## PipeWriter (ffmpeg_streamer.py lines 23-101) -/

/-- Outcome of one `os.write` call on the non-blocking pipe fd, as the
exceptions raised by the OS layer: success, `BlockingIOError` (pipe
full), a plain `OSError` with `errno == 11` that is not a
`BlockingIOError`, or a hard error such as `BrokenPipeError`. -/
inductive OsWrite where
  | ok
  | blockingErr
  | eagainErr
  | hardErr
deriving DecidableEq, Repr

/-- State of a `PipeWriter`: whether this is the video track
(`is_video`), whether `self.fd` is open (`fd is not None`), and the
`_broken` latch. -/
structure PipeWriter where
  is_video : Bool
  fdOpen : Bool
  broken : Bool
deriving DecidableEq, Repr

/-- How a `write_direct` call ended. -/
inductive WriteResult where
  | written
  | dropped
  | latchedBroken
  | skipped
deriving DecidableEq, Repr

/-- Result of `write_direct`: final writer state, outcome, number of
`os.write` attempts made, number of 2 ms sleeps taken. -/
structure WriteOutcome where
  w : PipeWriter
  result : WriteResult
  attempts : Nat
  sleeps : Nat
deriving DecidableEq, Repr

/-- The retry loop of `PipeWriter.write_direct` (lines 67-89), from
attempt index `i` with `fuel` iterations of the `for` loop remaining;
`env i` is the OS's answer to the `i`-th `os.write`.  `retries` is the
loop bound computed at line 65 (`0` for video, `10` for audio). -/
def writeLoop (pw : PipeWriter) (env : Nat → OsWrite) (retries : Nat) :
    Nat → Nat → WriteOutcome
  | _, 0 => ⟨pw, .dropped, 0, 0⟩
  | i, fuel + 1 =>
    match env i with
    | .ok => ⟨pw, .written, 1, 0⟩
    | .blockingErr =>
        if pw.is_video then ⟨pw, .dropped, 1, 0⟩
        else if i < retries then
          let rest := writeLoop pw env retries (i + 1) fuel
          ⟨rest.w, rest.result, rest.attempts + 1, rest.sleeps + 1⟩
        else ⟨pw, .dropped, 1, 0⟩
    | .eagainErr =>
        if pw.is_video = false ∧ i < retries then
          let rest := writeLoop pw env retries (i + 1) fuel
          ⟨rest.w, rest.result, rest.attempts + 1, rest.sleeps + 1⟩
        else ⟨pw, .dropped, 1, 0⟩
    | .hardErr =>
        ⟨{ pw with broken := true, fdOpen := false }, .latchedBroken, 1, 0⟩

/-- `PipeWriter.write_direct` (lines 60-89): return at once when the fd
is missing or the channel is latched broken; otherwise run the retry
loop with `retries = 0` for video and `10` for audio. -/
def write_direct (pw : PipeWriter) (env : Nat → OsWrite) : WriteOutcome :=
  if pw.fdOpen = false ∨ pw.broken then ⟨pw, .skipped, 0, 0⟩
  else
    let retries := if pw.is_video then 0 else 10
    writeLoop pw env retries 0 (retries + 1)

/-! ## Video push path (miot_service.py `on_video_data`,
ffmpeg_streamer.py `FFmpegStreamer.push_video`) -/

/-- A raw video frame as delivered by the SDK's raw-video callback:
`(did, data, ts, seq, channel, frame_type)`; here the fields the relay
uses. -/
structure Frame where
  seq : Nat
  payload : List Nat
  isIFrame : Bool
deriving DecidableEq, Repr

/-- `FFmpegStreamer.push_video` (line 358): `if self.video_writer:
self.video_writer.write_direct(data)`.  The `seq` and `is_i_frame`
arguments are accepted but never used.  Returns the updated writer and
the bytes actually written into the transcoder pipe (if any). -/
def push_video (vw : Option PipeWriter) (data : List Nat) (_seq : Nat)
    (_is_i_frame : Bool) (env : Nat → OsWrite) :
    Option PipeWriter × Option (List Nat) :=
  match vw with
  | none => (none, none)
  | some w =>
      let o := write_direct w env
      (some o.w, if o.result = .written then some data else none)

/-- The frames written toward the transcoder pipe when the given frames
arrive in order on the raw-video callback (`on_video_data` calls
`push_video(data, seq, is_i_frame=is_i)` for each frame, miot_service.py
line 94).  `env` answers each `os.write` attempt within one push. -/
def pushAll (vw : Option PipeWriter) (env : Nat → OsWrite) :
    List Frame → Option PipeWriter × List Frame
  | [] => (vw, [])
  | f :: fs =>
      let step := push_video vw f.payload f.seq f.isIFrame env
      let rest := pushAll step.1 env fs
      (rest.1, (match step.2 with | some _ => [f] | none => []) ++ rest.2)

/-- Sequence numbers of the frames emitted downstream. -/
def emittedSeqs (vw : Option PipeWriter) (env : Nat → OsWrite)
    (fs : List Frame) : List Nat :=
  ((pushAll vw env fs).2).map Frame.seq

/-- The four-frame scenario of the claim: frames with sequence numbers
5, 3, 4, 6 pushed in that order on a fresh stream. -/
def c1Frames : List Frame :=
  [⟨5, [0], false⟩, ⟨3, [0], false⟩, ⟨4, [0], false⟩, ⟨6, [0], false⟩]

/-! ## Freeze watchdog (ffmpeg_streamer.py `_monitor_ffmpeg`,
lines 251-329) -/

/-- Cumulative counters parsed from one `progress=continue` block of
the child's progress stream: `frame` and `dup_frames` (falling back to
`dup`). -/
structure ProgressSample where
  frame : Int
  dup : Int
deriving DecidableEq, Repr

/-- Watchdog state carried across progress samples:
`_last_frame_total`, `_last_dup_total`, `_frozen_counter`. -/
structure WatchState where
  last_frame_total : Int
  last_dup_total : Int
  frozen_counter : Nat
deriving DecidableEq, Repr

/-- Line 297: `delta_frame > 0 and (delta_dup / delta_frame) > 0.95`
(the float division modelled as exact rational division). -/
def sampleFrozen (st : WatchState) (s : ProgressSample) : Bool :=
  decide (0 < s.frame - st.last_frame_total) &&
  decide ((95 : ℚ) / 100 <
    ((s.dup - st.last_dup_total : Int) : ℚ) /
      ((s.frame - st.last_frame_total : Int) : ℚ))

/-- Lines 285-300: update the cumulative totals and bump the frozen
counter on a > 95 % duplicate sample, resetting it to 0 otherwise. -/
def frozenStep (st : WatchState) (s : ProgressSample) : WatchState :=
  ⟨s.frame, s.dup,
    if sampleFrozen st s then st.frozen_counter + 1 else 0⟩

/-- Lines 285-305 over a list of progress samples: after each sample the
guard `if self._frozen_counter > 20` declares the stream frozen and
breaks out (triggering the restart).  Returns whether the freeze
restart fired. -/
def freezeTriggered (st : WatchState) : List ProgressSample → Bool
  | [] => false
  | s :: rest =>
      let st1 := frozenStep st s
      if 20 < st1.frozen_counter then true else freezeTriggered st1 rest

/-- The per-sample frozen verdicts along a run (each sample judged
against the totals of its predecessor). -/
def frozenFlags (st : WatchState) : List ProgressSample → List Bool
  | [] => []
  | s :: rest => sampleFrozen st s :: frozenFlags (frozenStep st s) rest

/-- The counter dynamics on the Boolean verdict sequence alone. -/
def triggerRun (c : Nat) : List Bool → Bool
  | [] => false
  | b :: rest =>
      let c1 := if b then c + 1 else 0
      if 20 < c1 then true else triggerRun c1 rest

/-- A run of 21 consecutive `true` verdicts starts right here. -/
def winHere (bl : List Bool) : Bool :=
  decide (21 ≤ bl.length) && (bl.take 21).all id

/-- Some run of 21 consecutive `true` verdicts occurs in the list. -/
def hasWin : List Bool → Bool
  | [] => false
  | b :: rest => winHere (b :: rest) || hasWin rest

/-! ### Integer reformulation of the frozen test, for evaluation

`Rat` arithmetic does not reduce inside the kernel, so concrete runs of
the watchdog are evaluated through a proven integer reformulation of
`sampleFrozen`. -/

/-- `delta_dup / delta_frame > 0.95` over positive `delta_frame` is the
integer test `19 * delta_frame < 20 * delta_dup`. -/
def sampleFrozenInt (st : WatchState) (s : ProgressSample) : Bool :=
  decide (0 < s.frame - st.last_frame_total) &&
  decide (19 * (s.frame - st.last_frame_total)
    < 20 * (s.dup - st.last_dup_total))

def frozenStepInt (st : WatchState) (s : ProgressSample) : WatchState :=
  ⟨s.frame, s.dup,
    if sampleFrozenInt st s then st.frozen_counter + 1 else 0⟩

def freezeTriggeredInt (st : WatchState) : List ProgressSample → Bool
  | [] => false
  | s :: rest =>
      let st1 := frozenStepInt st s
      if 20 < st1.frozen_counter then true else freezeTriggeredInt st1 rest

def frozenFlagsInt (st : WatchState) : List ProgressSample → List Bool
  | [] => []
  | s :: rest => sampleFrozenInt st s :: frozenFlagsInt (frozenStepInt st s) rest

/-! ## Monitor loop and process exit (ffmpeg_streamer.py lines 251-329) -/

/-- One stderr line of the child as `_monitor_ffmpeg` classifies it: a
line containing one of the `fatal_hw_errors` substrings, a complete
`progress=continue` block (with its parsed cumulative counters), or any
other line (info prefixes and non-fatal errors are logged or ignored). -/
inductive StderrLine where
  | fatalHw
  | progress (s : ProgressSample)
  | other
deriving DecidableEq, Repr

/-- `_monitor_ffmpeg` over the stderr lines the child produced before
exiting, returning whether `_trigger_global_restart` ran (the
cooldown/restart path).  A fatal hardware-error line triggers it, and
so does the freeze watchdog; when stderr reaches EOF (the process has
exited) the loop simply ends — `self.process.poll()` is called but its
exit code `exit_code` is never examined, so no exit code triggers
cooldown by itself. -/
def monitorTriggersCooldown (st : WatchState) (exit_code : Int) :
    List StderrLine → Bool
  | [] => false
  | .fatalHw :: _ => true
  | .other :: rest => monitorTriggersCooldown st exit_code rest
  | .progress s :: rest =>
      let st1 := frozenStep st s
      if 20 < st1.frozen_counter then true
      else monitorTriggersCooldown st1 exit_code rest

/-- The progress blocks among a stderr line list, in order. -/
def progressSamples : List StderrLine → List ProgressSample
  | [] => []
  | .progress s :: rest => s :: progressSamples rest
  | _ :: rest => progressSamples rest

/-! ## Global cooldown and backoff (ffmpeg_streamer.py lines 104-108,
243-249, 277-282) -/

/-- The class-level (process-wide) cooldown state shared by every
`FFmpegStreamer` instance: `_global_cooldown_until` and
`_global_cooldown_step` (base 10 s). -/
structure GlobalCooldown where
  cooldown_until : ℚ
  cooldown_step : ℕ
deriving DecidableEq, Repr

/-- The cooldown arithmetic of `_trigger_global_restart` (lines
246-247): set the shared deadline to `now + step`, then raise the step
additively by 10 capped at 60.  Returns the new shared state and the
cooldown duration just applied. -/
def trigger_cooldown (g : GlobalCooldown) (now : ℚ) : GlobalCooldown × ℕ :=
  (⟨now + g.cooldown_step, min (g.cooldown_step + 10) 60⟩, g.cooldown_step)

/-- The stability reset in `_monitor_ffmpeg` (lines 280-282): on a
progress sample more than 60 s after the monitor started, a step above
the base is reset to 10. -/
def stabilityReset (g : GlobalCooldown) (now start_time : ℚ) :
    GlobalCooldown :=
  if 60 < now - start_time ∧ 10 < g.cooldown_step then
    ⟨g.cooldown_until, 10⟩
  else g

/-- The cooldown durations applied over a run of consecutive failures
at the given times, with no intervening stability reset. -/
def cooldownDurations (g : GlobalCooldown) : List ℚ → List ℕ
  | [] => []
  | t :: ts =>
      let r := trigger_cooldown g t
      r.2 :: cooldownDurations r.1 ts

/-! ## FFmpegStreamer lifecycle (ffmpeg_streamer.py lines 104-366) -/

/-- Teardown actions of `FFmpegStreamer.stop`, in program order. -/
inductive TeardownAct where
  | closeVideoPipe
  | closeAudioPipe
  | terminateProc (pid : Nat)
  | destroyCameraProxy
deriving DecidableEq, Repr

/-- Per-instance state of an `FFmpegStreamer`: the two pipe writers,
the tracked child process (by pid), the `_should_restart` flag and the
watchdog counters. -/
structure StreamerInst where
  camera_id : String
  video_writer : Option PipeWriter
  audio_writer : Option PipeWriter
  process : Option Nat
  should_restart : Bool
  watch : WatchState
deriving DecidableEq, Repr

/-- `FFmpegStreamer.stop` (lines 331-353): close the video writer if
present, then close the audio writer if present, then — only after both
pipe closes — terminate the tracked child (force-killing it if the 2 s
wait expires) and drop the handle.  Returns the new state and the
teardown actions in the order the code performs them. -/
def stop (inst : StreamerInst) : StreamerInst × List TeardownAct :=
  let a1 : List TeardownAct :=
    match inst.video_writer with
    | some _ => [.closeVideoPipe]
    | none => []
  let a2 : List TeardownAct :=
    match inst.audio_writer with
    | some _ => [.closeAudioPipe]
    | none => []
  let a3 : List TeardownAct :=
    match inst.process with
    | some pid => [.terminateProc pid]
    | none => []
  ({ inst with video_writer := none, audio_writer := none, process := none },
   a1 ++ a2 ++ a3)

/-- Process-wide state: the class-level cooldown, the class-level
`_global_start_lock`, the set of live child pids, and a counter
standing for the OS handing out fresh pids. -/
structure GlobalState where
  cooldown : GlobalCooldown
  start_lock_held : Bool
  live : List Nat
  next_pid : Nat
deriving DecidableEq, Repr

/-- The guard of `FFmpegStreamer.start` (lines 129-139): return with no
action while the shared cooldown deadline has not passed, then try the
class-level start lock without blocking and return with no action if it
is held.  `none` means the call was a no-op. -/
def start_guard (g : GlobalState) (now : ℚ) : Option GlobalState :=
  if now < g.cooldown.cooldown_until then none
  else if g.start_lock_held then none
  else some { g with start_lock_held := true }

/-- The body of `start` under the lock (lines 141-241): `self.stop()`
(closing both pipes and killing any previous child), reset the watchdog
fields and `_should_restart`, recreate both pipe writers, spawn a fresh
child process, and release the lock in the `finally`. -/
def start_body (inst : StreamerInst) (g : GlobalState) :
    StreamerInst × GlobalState :=
  let live1 :=
    match inst.process with
    | some p => g.live.filter (fun q => q ≠ p)
    | none => g.live
  (⟨inst.camera_id, some ⟨true, true, false⟩, some ⟨false, true, false⟩,
      some g.next_pid, false, ⟨0, 0, 0⟩⟩,
   { g with start_lock_held := false,
            live := live1 ++ [g.next_pid],
            next_pid := g.next_pid + 1 })

/-- `FFmpegStreamer.start`: guard, then body.  The Boolean reports
whether a child process was spawned. -/
def start (inst : StreamerInst) (g : GlobalState) (now : ℚ) :
    StreamerInst × GlobalState × Bool :=
  match start_guard g now with
  | none => (inst, g, false)
  | some g1 =>
      let r := start_body inst g1
      (r.1, r.2, true)

/-- `FFmpegStreamer._trigger_global_restart` (lines 243-249), invoked
from the monitor of instance `inst`: set `_should_restart`, update the
shared class-level cooldown state, and kill the tracked child. -/
def trigger_global_restart (inst : StreamerInst) (g : GlobalState)
    (now : ℚ) : StreamerInst × GlobalState :=
  let r := trigger_cooldown g.cooldown now
  ({ inst with should_restart := true },
   { g with cooldown := r.1,
            live :=
              match inst.process with
              | some p => g.live.filter (fun q => q ≠ p)
              | none => g.live })

/-! ## Subscriber hub (miot_controller.py `MIoTVideoStreamManager`,
lines 222-333) -/

/-- Python-`dict` lookup over an insertion-ordered association list. -/
def lookup {κ ν : Type} [DecidableEq κ] : List (κ × ν) → κ → Option ν
  | [], _ => none
  | (k, v) :: rest, key => if k = key then some v else lookup rest key

/-- Python-`dict` assignment: replace in place when the key exists,
otherwise append in insertion order. -/
def setKey {κ ν : Type} [DecidableEq κ] :
    List (κ × ν) → κ → ν → List (κ × ν)
  | [], key, v => [(key, v)]
  | (k, w) :: rest, key, v =>
      if k = key then (k, v) :: rest else (k, w) :: setKey rest key v

/-- Python-`dict.pop`: remove the key's entry. -/
def eraseKey {κ ν : Type} [DecidableEq κ] : List (κ × ν) → κ → List (κ × ν)
  | [], _ => []
  | (k, w) :: rest, key =>
      if k = key then rest else (k, w) :: eraseKey rest key

/-- The `camera_tag` components: `"{camera_id}.{channel}.{video_quality}"`. -/
structure CamKey where
  camera_id : String
  channel : Nat
  video_quality : Nat
deriving DecidableEq, Repr

/-- The `user_tag` components: `"{user_name}.{token_hash}"`. -/
structure UserKey where
  user_name : String
  token_hash : String
deriving DecidableEq, Repr

/-- The per-user `OrderedDict` of live connections, insertion-ordered:
`(connection_id, websocket handle)`. -/
abbrev ConnList := List (Nat × Nat)

abbrev UserMap := List (UserKey × ConnList)

/-- `MIoTVideoStreamManager` state: `_camera_connect_map` and the
`_camera_connect_id` counter. -/
structure VSManager where
  camera_connect_map : List (CamKey × UserMap)
  camera_connect_id : Nat
deriving DecidableEq, Repr

/-- Externally visible effects of the hub: a stream-start request to
the vendor-SDK path (`start_video_stream`), a stream release
(`stop_video_stream`), or closing one viewer websocket. -/
inductive StreamEvent where
  | startStream (key : CamKey)
  | stopStream (key : CamKey)
  | closeWS (ws : Nat)
deriving DecidableEq, Repr

def CAMERA_CONNECT_COUNT_MAX : Nat := 4

/-- `OrderedDict.popitem(last=False)`: drop the first-inserted entry,
closing its websocket. -/
def popOldest (l : ConnList) : ConnList × List StreamEvent :=
  match l with
  | [] => ([], [])
  | c0 :: rest => (rest, [.closeWS c0.2])

/-- `MIoTVideoStreamManager.new_connection` (lines 235-271): when the
key is absent or has an empty user map, reset it to `{}` and request
the stream start; register the connection under the user's ordered
dict with a fresh `connection_id`; if the user's dict then exceeds
`_CAMERA_CONNECT_COUNT_MAX`, evict the oldest entry (FIFO) and close
its socket.  Returns the new state, the connection id, and the emitted
events in program order. -/
def new_connection (m : VSManager) (ws : Nat) (user : UserKey)
    (key : CamKey) : VSManager × Nat × List StreamEvent :=
  let startNeeded :=
    match lookup m.camera_connect_map key with
    | none => true
    | some umap => umap.isEmpty
  let cmap :=
    if startNeeded then setKey m.camera_connect_map key []
    else m.camera_connect_map
  let evStart : List StreamEvent :=
    if startNeeded then [.startStream key] else []
  let umap := (lookup cmap key).getD []
  let conns := (lookup umap user).getD []
  let cid := m.camera_connect_id
  let conns1 := conns ++ [(cid, ws)]
  let popped :=
    if CAMERA_CONNECT_COUNT_MAX < conns1.length then popOldest conns1
    else (conns1, [])
  (⟨setKey cmap key (setKey umap user popped.1), cid + 1⟩, cid,
   evStart ++ popped.2)

/-- `MIoTVideoStreamManager.close_connection` (lines 273-303): return
silently when the key, user or connection id is unknown; otherwise pop
the connection and close its socket, drop the user entry if it became
empty, and when no user is left for the key, release the stream and
drop the key. -/
def close_connection (m : VSManager) (user : UserKey) (key : CamKey)
    (cid : Nat) : VSManager × List StreamEvent :=
  match lookup m.camera_connect_map key with
  | none => (m, [])
  | some umap =>
      match lookup umap user with
      | none => (m, [])
      | some conns =>
          match lookup conns cid with
          | none => (m, [])
          | some ws =>
              let conns1 := eraseKey conns cid
              let umap1 :=
                if conns1.isEmpty then eraseKey umap user
                else setKey umap user conns1
              if umap1.isEmpty then
                (⟨eraseKey m.camera_connect_map key, m.camera_connect_id⟩,
                 [.closeWS ws, .stopStream key])
              else
                (⟨setKey m.camera_connect_map key umap1,
                    m.camera_connect_id⟩,
                 [.closeWS ws])

/-- Live connections registered for `key` under `user`. -/
def connsOf (m : VSManager) (key : CamKey) (user : UserKey) : ConnList :=
  (lookup ((lookup m.camera_connect_map key).getD []) user).getD []

/-- All live websocket handles a user holds for a given
`(camera_id, channel)`, summed across every quality tier the hub
tracks separately. -/
def liveForTriple (m : VSManager) (user : UserKey) (c : String)
    (ch : Nat) : Nat :=
  (m.camera_connect_map.map (fun kv =>
    if kv.1.camera_id = c ∧ kv.1.channel = ch
    then ((lookup kv.2 user).getD []).length else 0)).sum

def hubUser : UserKey := ⟨"alice", "t1"⟩

def hubKeyQ1 : CamKey := ⟨"cam", 0, 1⟩

def hubKeyQ2 : CamKey := ⟨"cam", 0, 2⟩

/-- Four sequential subscriptions from the same user for the same
camera, channel and quality, on a fresh manager. -/
def c9Four : VSManager :=
  (new_connection
    (new_connection
      (new_connection
        (new_connection ⟨[], 0⟩ 10 hubUser hubKeyQ1).1
        11 hubUser hubKeyQ1).1
      12 hubUser hubKeyQ1).1
    13 hubUser hubKeyQ1).1

/-! ## Theorems -/

/-! ### Lemmas about the retry loop -/

theorem writeLoop_sleeps_le (pw : PipeWriter) (env : Nat → OsWrite)
    (retries : Nat) :
    ∀ fuel i, i + fuel = retries + 1 →
      (writeLoop pw env retries i fuel).sleeps ≤ fuel - 1 := by
  intro fuel
  induction fuel with
  | zero => intro i _; simp [writeLoop]
  | succ n ih =>
    intro i hinv
    simp only [writeLoop]
    cases env i with
    | ok => simp
    | blockingErr =>
      by_cases hv : pw.is_video
      · simp [hv]
      · simp only [hv, Bool.false_eq_true, if_false]
        by_cases hi : i < retries
        · have hn : 0 < n := by omega
          simp only [hi, if_true]
          have := ih (i + 1) (by omega)
          omega
        · simp [hi]
    | eagainErr =>
      by_cases hc : pw.is_video = false ∧ i < retries
      · have hn : 0 < n := by omega
        simp only [hc, and_self, if_true]
        have := ih (i + 1) (by omega)
        omega
      · simp [hc]
    | hardErr => simp

/-- With the pipe permanently full (every attempt raises
`BlockingIOError`) and the writer on the audio policy, the loop makes
every allowed attempt, sleeping between each, and gives up. -/
theorem writeLoop_audio_allBlock (pw : PipeWriter) (env : Nat → OsWrite)
    (retries : Nat) (hv : pw.is_video = false)
    (hfull : ∀ i, env i = .blockingErr) :
    ∀ fuel i, i + fuel = retries + 1 → 0 < fuel →
      writeLoop pw env retries i fuel = ⟨pw, .dropped, fuel, fuel - 1⟩ := by
  intro fuel
  induction fuel with
  | zero => intro i _ h; omega
  | succ n ih =>
    intro i hsum _
    simp only [writeLoop, hfull i, hv, if_false, Bool.false_eq_true]
    rcases Nat.eq_zero_or_pos n with hn | hn
    · subst hn
      have : ¬ i < retries := by omega
      simp [this]
    · have hi : i < retries := by omega
      simp only [hi, if_true]
      rw [ih (i + 1) (by omega) hn]
      simp
      omega

/-- C2 core: behaviour of `write_direct` on a channel whose pipe is
full.  Video drops immediately with no retry and no sleep; audio makes
exactly 11 attempts (10 retries) with 10 short sleeps and then gives
up; and for any OS behaviour at all the number of 2 ms sleeps is at
most 10, so the caller is never blocked beyond 20 ms of sleeping. -/
theorem write_direct_wouldblock_policy (pw : PipeWriter)
    (env : Nat → OsWrite) (hfd : pw.fdOpen = true) (hb : pw.broken = false)
    (hfull : ∀ i, env i = .blockingErr) :
    (pw.is_video = true → write_direct pw env = ⟨pw, .dropped, 1, 0⟩)
    ∧ (pw.is_video = false →
        write_direct pw env = ⟨pw, .dropped, 11, 10⟩)
    ∧ (∀ env2 : Nat → OsWrite, (write_direct pw env2).sleeps ≤ 10) := by
  refine ⟨?_, ?_, ?_⟩
  · intro hv
    simp [write_direct, hfd, hb, hv, writeLoop, hfull 0]
  · intro hv
    simp only [write_direct, hfd, hb, hv]
    simp only [Bool.false_eq_true, if_false, or_self]
    exact writeLoop_audio_allBlock pw env 10 hv hfull 11 0 rfl (by omega)
  · intro env2
    have hcond : ¬ (pw.fdOpen = false ∨ pw.broken = true) := by
      simp [hfd, hb]
    unfold write_direct
    rw [if_neg hcond]
    by_cases hv : pw.is_video
    · simp only [hv, if_true]
      exact le_trans (writeLoop_sleeps_le pw env2 0 (0 + 1) 0 rfl) (by norm_num)
    · simp only [hv, Bool.false_eq_true, if_false]
      exact le_trans (writeLoop_sleeps_le pw env2 10 (10 + 1) 0 rfl) (by norm_num)

/-- Witness for `write_direct_wouldblock_policy` at a concrete audio
writer and a permanently full pipe. -/
theorem write_direct_wouldblock_policy_witness :
    write_direct ⟨false, true, false⟩ (fun _ => OsWrite.blockingErr)
      = ⟨⟨false, true, false⟩, .dropped, 11, 10⟩ :=
  (write_direct_wouldblock_policy ⟨false, true, false⟩
    (fun _ => OsWrite.blockingErr) rfl rfl (fun _ => rfl)).2.1 rfl

/-- C1 counterexample: on a fresh video writer whose pipe accepts every
write, pushing frames with sequences `[5,3,4,6]` emits them downstream
in exactly that arrival order — not `[3,4,6,5]`-reordered, not held —
so the emitted sequence numbers are not strictly increasing and the
claimed output `[3,4,5,6]` does not occur. -/
theorem push_video_no_reorder_cex :
    emittedSeqs (some ⟨true, true, false⟩) (fun _ => OsWrite.ok) c1Frames
        = [5, 3, 4, 6]
    ∧ ¬ List.Chain' (· < ·)
        (emittedSeqs (some ⟨true, true, false⟩) (fun _ => OsWrite.ok) c1Frames)
    ∧ emittedSeqs (some ⟨true, true, false⟩) (fun _ => OsWrite.ok) c1Frames
        ≠ [3, 4, 5, 6] := by
  have h : emittedSeqs (some ⟨true, true, false⟩) (fun _ => OsWrite.ok)
      c1Frames = [5, 3, 4, 6] := by decide
  refine ⟨h, ?_, by decide⟩
  rw [h]
  simp [List.chain'_cons]

/-- C1 amended: there is no reorder buffer.  For every frame list, with
a live video writer whose pipe accepts every write, the frames written
toward the transcoder pipe are exactly the pushed frames in arrival
order; the sequence number has no effect on emission. -/
theorem push_video_arrival_order (w : PipeWriter) (fs : List Frame)
    (hfd : w.fdOpen = true) (hb : w.broken = false) :
    (pushAll (some w) (fun _ => OsWrite.ok) fs).2 = fs := by
  induction fs with
  | nil => simp [pushAll]
  | cons f rest ih =>
    have hw : write_direct w (fun _ => OsWrite.ok) = ⟨w, .written, 1, 0⟩ := by
      simp [write_direct, hfd, hb, writeLoop]
    simp only [pushAll, push_video, hw]
    simp [ih]

/-- Witness for `push_video_arrival_order` on the `[5,3,4,6]` scenario. -/
theorem push_video_arrival_order_witness :
    (pushAll (some ⟨true, true, false⟩) (fun _ => OsWrite.ok) c1Frames).2
      = c1Frames :=
  push_video_arrival_order ⟨true, true, false⟩ c1Frames rfl rfl

theorem freezeTriggered_eq_triggerRun (l : List ProgressSample) :
    ∀ st, freezeTriggered st l
      = triggerRun st.frozen_counter (frozenFlags st l) := by
  induction l with
  | nil => intro st; simp [freezeTriggered, frozenFlags, triggerRun]
  | cons s rest ih =>
    intro st
    by_cases hf : sampleFrozen st s
    · simp only [freezeTriggered, frozenFlags, triggerRun, frozenStep, hf,
        if_true]
      by_cases ht : 20 < st.frozen_counter + 1
      · simp [ht]
      · simp only [ht, if_false]
        have := ih (frozenStep st s)
        simp only [frozenStep, hf, if_true] at this
        exact this
    · have h2 := ih (frozenStep st s)
      simp only [frozenStep, hf, Bool.false_eq_true, if_false] at h2
      simp [freezeTriggered, frozenFlags, triggerRun, frozenStep, hf, h2]

theorem all_take_mono (bl : List Bool) (m n : Nat) (hmn : m ≤ n)
    (h : (bl.take n).all id = true) : (bl.take m).all id = true := by
  simp only [List.all_eq_true] at h ⊢
  intro x hx
  apply h
  have : bl.take m = (bl.take n).take m := by
    rw [List.take_take, Nat.min_eq_left hmn]
  rw [this] at hx
  exact List.mem_of_mem_take hx

theorem winHere_imp_hasWin (bl : List Bool) (h : winHere bl = true) :
    hasWin bl = true := by
  cases bl with
  | nil => simp [winHere] at h
  | cons b rest => simp [hasWin, h]

theorem winHere_false_cons (l : List Bool) : winHere (false :: l) = false := by
  rw [winHere, show (21 : Nat) = 20 + 1 from rfl, List.take_succ_cons]
  simp

theorem winHere_true_cons (l : List Bool) :
    winHere (true :: l) = (decide (20 ≤ l.length) && (l.take 20).all id) := by
  rw [winHere, show (21 : Nat) = 20 + 1 from rfl, List.take_succ_cons]
  simp [Nat.add_le_add_iff_right]

/-- Counter dynamics vs. windows: starting from counter `c ≤ 20`, the
`> 20` trigger fires along `bl` iff either the first `21 - c` verdicts
are all `true`, or a full 21-run occurs somewhere in `bl`. -/
theorem triggerRun_iff (bl : List Bool) :
    ∀ c, c ≤ 20 →
      (triggerRun c bl = true ↔
        ((21 - c ≤ bl.length ∧ (bl.take (21 - c)).all id = true)
          ∨ hasWin bl = true)) := by
  induction bl with
  | nil =>
    intro c hc
    simp only [triggerRun, hasWin, List.length_nil]
    constructor
    · intro h; cases h
    · rintro (⟨h1, _⟩ | h2)
      · omega
      · cases h2
  | cons b rest ih =>
    intro c hc
    have h21 : 21 - c = (20 - c) + 1 := by omega
    cases b with
    | false =>
      have hstep : triggerRun c (false :: rest) = triggerRun 0 rest := by
        simp [triggerRun]
      rw [hstep, ih 0 (by omega)]
      constructor
      · rintro (⟨hl, ha⟩ | hw)
        · have hwr : hasWin rest = true := by
            apply winHere_imp_hasWin
            simp only [winHere, Bool.and_eq_true, decide_eq_true_eq]
            exact ⟨by omega, by simpa using ha⟩
          right
          simp [hasWin, hwr]
        · right
          simp [hasWin, hw]
      · rintro (⟨hl, ha⟩ | hw)
        · rw [h21, List.take_succ_cons] at ha
          simp at ha
        · simp only [hasWin, Bool.or_eq_true] at hw
          rcases hw with hw | hw
          · rw [winHere_false_cons] at hw
            cases hw
          · right
            exact hw
    | true =>
      by_cases hc20 : c = 20
      · subst hc20
        have hstep : triggerRun 20 (true :: rest) = true := by
          simp [triggerRun]
        rw [hstep]
        simp only [true_iff]
        left
        refine ⟨by simp, ?_⟩
        rw [show (21 : Nat) - 20 = 1 from rfl]
        simp
      · have hc' : c + 1 ≤ 20 := by omega
        have hstep : triggerRun c (true :: rest) = triggerRun (c + 1) rest := by
          simp only [triggerRun]
          have h1 : ¬ (20 < c + 1) := by omega
          simp [h1]
        have h21' : 21 - (c + 1) = 20 - c := by omega
        have hfirst :
            (21 - c ≤ (true :: rest).length
              ∧ ((true :: rest).take (21 - c)).all id = true)
            ↔ (21 - (c + 1) ≤ rest.length
              ∧ (rest.take (21 - (c + 1))).all id = true) := by
          rw [h21, h21', List.take_succ_cons]
          simp only [List.all_cons, id_eq, Bool.true_and, List.length_cons]
          constructor
          · rintro ⟨hl, ha⟩
            exact ⟨by omega, ha⟩
          · rintro ⟨hl, ha⟩
            exact ⟨by omega, ha⟩
        rw [hstep, ih (c + 1) hc']
        constructor
        · rintro (h1 | hw)
          · left; exact hfirst.mpr h1
          · right; simp [hasWin, hw]
        · rintro (h1 | hw)
          · left; exact hfirst.mp h1
          · simp only [hasWin, Bool.or_eq_true] at hw
            rcases hw with hw | hw
            · left
              rw [winHere_true_cons] at hw
              simp only [Bool.and_eq_true, decide_eq_true_eq] at hw
              exact ⟨by omega,
                all_take_mono rest (21 - (c + 1)) 20 (by omega) hw.2⟩
            · right; exact hw

theorem hasWin_iff_window (bl : List Bool) :
    hasWin bl = true ↔
      ∃ i, 21 ≤ (bl.drop i).length
        ∧ ((bl.drop i).take 21).all id = true := by
  induction bl with
  | nil =>
    simp [hasWin]
  | cons b rest ih =>
    simp only [hasWin, Bool.or_eq_true, ih]
    constructor
    · rintro (hw | ⟨i, hi⟩)
      · refine ⟨0, ?_⟩
        simp only [List.drop_zero]
        simpa [winHere, Bool.and_eq_true, decide_eq_true_eq] using hw
      · exact ⟨i + 1, by simpa using hi⟩
    · rintro ⟨i, hlen, hall⟩
      cases i with
      | zero =>
        left
        simp only [List.drop_zero] at hlen hall
        simp only [winHere, Bool.and_eq_true, decide_eq_true_eq]
        exact ⟨hlen, hall⟩
      | succ j =>
        right
        exact ⟨j, by simpa using hlen, by simpa using hall⟩

theorem sampleFrozen_eq_int (st : WatchState) (s : ProgressSample) :
    sampleFrozen st s = sampleFrozenInt st s := by
  unfold sampleFrozen sampleFrozenInt
  by_cases hdf : 0 < s.frame - st.last_frame_total
  · have hq : (0 : ℚ) < ((s.frame - st.last_frame_total : Int) : ℚ) := by
      exact_mod_cast hdf
    have hiff : ((95 : ℚ) / 100 <
        ((s.dup - st.last_dup_total : Int) : ℚ) /
          ((s.frame - st.last_frame_total : Int) : ℚ))
        ↔ (19 * (s.frame - st.last_frame_total)
            < 20 * (s.dup - st.last_dup_total)) := by
      rw [div_lt_div_iff₀ (by norm_num : (0 : ℚ) < 100) hq]
      constructor
      · intro h
        have h2 : (95 : Int) * (s.frame - st.last_frame_total)
            < (s.dup - st.last_dup_total) * 100 := by exact_mod_cast h
        omega
      · intro h
        have h2 : (95 : Int) * (s.frame - st.last_frame_total)
            < (s.dup - st.last_dup_total) * 100 := by omega
        exact_mod_cast h2
    push_cast at hiff
    simp [hdf, hiff]
  · simp [hdf]

theorem frozenStep_eq_int (st : WatchState) (s : ProgressSample) :
    frozenStep st s = frozenStepInt st s := by
  unfold frozenStep frozenStepInt
  rw [sampleFrozen_eq_int]

theorem freezeTriggered_eq_intForm (l : List ProgressSample) :
    ∀ st, freezeTriggered st l = freezeTriggeredInt st l := by
  induction l with
  | nil => intro st; rfl
  | cons s rest ih =>
    intro st
    simp only [freezeTriggered, freezeTriggeredInt, frozenStep_eq_int]
    by_cases h : 20 < (frozenStepInt st s).frozen_counter
    · simp [h]
    · simp [h, ih]

theorem frozenFlags_eq_intForm (l : List ProgressSample) :
    ∀ st, frozenFlags st l = frozenFlagsInt st l := by
  induction l with
  | nil => intro st; rfl
  | cons s rest ih =>
    intro st
    simp only [frozenFlags, frozenFlagsInt, sampleFrozen_eq_int,
      frozenStep_eq_int, ih]

/-- C4: the freeze watchdog declares the pipeline frozen iff some run
of 21 consecutive progress samples each showed more than 95 % duplicate
frames among the new output frames; and any single sample at or below
the threshold resets the consecutive count to zero. -/
theorem frozen_detection_iff (st : WatchState) (l : List ProgressSample)
    (h0 : st.frozen_counter = 0) :
    (freezeTriggered st l = true ↔
      ∃ i, 21 ≤ ((frozenFlags st l).drop i).length
        ∧ (((frozenFlags st l).drop i).take 21).all id = true)
    ∧ (∀ st2 s, sampleFrozen st2 s = false →
        (frozenStep st2 s).frozen_counter = 0) := by
  constructor
  · rw [freezeTriggered_eq_triggerRun, h0, ← hasWin_iff_window,
      triggerRun_iff (frozenFlags st l) 0 (by omega)]
    constructor
    · rintro (⟨hl, ha⟩ | hw)
      · apply winHere_imp_hasWin
        simp only [winHere, Bool.and_eq_true, decide_eq_true_eq]
        simp only [Nat.sub_zero] at hl ha
        exact ⟨hl, ha⟩
      · exact hw
    · intro hw
      right; exact hw
  · intro st2 s hf
    simp [frozenStep, hf]

/-- Witness for `frozen_detection_iff`: 21 consecutive all-duplicate
samples (frame and dup counters both advancing by 1 each second) do
trigger the freeze verdict. -/
theorem frozen_detection_iff_witness :
    freezeTriggered ⟨0, 0, 0⟩
      ((List.range 21).map (fun i => ⟨i + 1, i + 1⟩)) = true := by
  have h := (frozen_detection_iff ⟨0, 0, 0⟩
    ((List.range 21).map (fun i => ⟨i + 1, i + 1⟩)) rfl).1
  rw [h]
  refine ⟨0, ?_, ?_⟩ <;> rw [frozenFlags_eq_intForm] <;> decide

/-- C5 counterexample: the child exits immediately with exit code 1 — a
crash with a code on nobody's allow-list — and the monitor does not
enter the cooldown path: there is no exit-code check at all. -/
theorem silent_crash_no_cooldown_cex :
    monitorTriggersCooldown ⟨0, 0, 0⟩ 1 [] = false := by decide

/-- C5 amended: the cooldown path is never entered because of the exit
code.  The monitor's verdict is independent of the exit code; with no
fatal hardware-error line it equals exactly the freeze watchdog's
verdict over the progress blocks; and a process that exits producing no
lines triggers no cooldown, whatever its exit code. -/
theorem cooldown_independent_of_exit_code :
    (∀ (st : WatchState) (l : List StderrLine) (c₁ c₂ : Int),
      monitorTriggersCooldown st c₁ l = monitorTriggersCooldown st c₂ l)
    ∧ (∀ (st : WatchState) (c : Int) (l : List StderrLine),
        (∀ x ∈ l, x ≠ StderrLine.fatalHw) →
        monitorTriggersCooldown st c l
          = freezeTriggered st (progressSamples l))
    ∧ (∀ (st : WatchState) (c : Int),
        monitorTriggersCooldown st c [] = false) := by
  refine ⟨?_, ?_, ?_⟩
  · intro st l
    induction l generalizing st with
    | nil => intro c₁ c₂; rfl
    | cons x rest ih =>
      intro c₁ c₂
      cases x with
      | fatalHw => rfl
      | other => exact ih st c₁ c₂
      | progress s =>
        simp only [monitorTriggersCooldown]
        by_cases h : 20 < (frozenStep st s).frozen_counter
        · simp [h]
        · simp [h, ih (frozenStep st s) c₁ c₂]
  · intro st c l
    induction l generalizing st with
    | nil => intro _; rfl
    | cons x rest ih =>
      intro hnf
      cases x with
      | fatalHw => exact absurd rfl (hnf _ (List.mem_cons_self _ _))
      | other =>
        simp only [monitorTriggersCooldown, progressSamples]
        exact ih st (fun y hy => hnf y (List.mem_cons_of_mem _ hy))
      | progress s =>
        simp only [monitorTriggersCooldown, progressSamples, freezeTriggered]
        by_cases h : 20 < (frozenStep st s).frozen_counter
        · simp [h]
        · simp [h, ih (frozenStep st s)
            (fun y hy => hnf y (List.mem_cons_of_mem _ hy))]
  · intro st c; rfl

/-- Witness for `cooldown_independent_of_exit_code`: a run with one
ordinary line and one healthy progress block enters no cooldown, for
two different exit codes. -/
theorem cooldown_independent_of_exit_code_witness :
    monitorTriggersCooldown ⟨0, 0, 0⟩ 1
        [StderrLine.other, StderrLine.progress ⟨25, 3⟩]
      = monitorTriggersCooldown ⟨0, 0, 0⟩ 137
        [StderrLine.other, StderrLine.progress ⟨25, 3⟩]
    ∧ monitorTriggersCooldown ⟨0, 0, 0⟩ 1
        [StderrLine.other, StderrLine.progress ⟨25, 3⟩]
      = freezeTriggered ⟨0, 0, 0⟩ (progressSamples
          [StderrLine.other, StderrLine.progress ⟨25, 3⟩]) :=
  ⟨cooldown_independent_of_exit_code.1 ⟨0, 0, 0⟩
      [StderrLine.other, StderrLine.progress ⟨25, 3⟩] 1 137,
   cooldown_independent_of_exit_code.2.1 ⟨0, 0, 0⟩ 1
      [StderrLine.other, StderrLine.progress ⟨25, 3⟩] (by decide)⟩

theorem cooldownDurations_closed (ts : List ℚ) :
    ∀ u s, s ≤ 60 →
      cooldownDurations ⟨u, s⟩ ts
        = (List.range ts.length).map (fun i => min (s + 10 * i) 60) := by
  induction ts with
  | nil => intro u s _; rfl
  | cons t ts ih =>
    intro u s hs
    simp only [cooldownDurations, trigger_cooldown, List.length_cons,
      List.range_succ_eq_map, List.map_cons, List.map_map]
    rw [ih (t + s) (min (s + 10) 60) (by omega)]
    congr 1
    · omega
    · apply List.map_congr_left
      intro a _
      simp only [Function.comp_apply, Nat.succ_eq_add_one]
      omega

theorem cooldownDurations_monotone_capped (ts : List ℚ) :
    ∀ (u : ℚ) (s : ℕ), s ≤ 60 →
      List.Chain' (· ≤ ·) (cooldownDurations ⟨u, s⟩ ts)
      ∧ ∀ d ∈ cooldownDurations ⟨u, s⟩ ts, d ≤ 60 := by
  induction ts with
  | nil => intro u s _; simp [cooldownDurations]
  | cons t ts ih =>
    intro u s hs
    have ih2 := ih (t + s) (min (s + 10) 60) (by omega)
    constructor
    · cases ts with
      | nil => simp [cooldownDurations]
      | cons t2 ts2 =>
        simp only [cooldownDurations, trigger_cooldown] at ih2 ⊢
        exact List.Chain'.cons (by omega) ih2.1
    · intro d hd
      simp only [cooldownDurations, trigger_cooldown, List.mem_cons] at hd
      rcases hd with hd | hd
      · omega
      · exact ih2.2 d hd

/-- C6: cooldown durations over consecutive failures are non-decreasing
and capped at 60 s; from the base state the `i`-th consecutive failure
sleeps `min (10 + 10 i) 60` seconds (additive backoff, base 10, cap
60); and after a stability reset (> 60 s of progress), the next applied
duration is back to the 10 s base. -/
theorem cooldown_backoff_additive_capped (u : ℚ) (s : ℕ) (ts : List ℚ)
    (hstep : s ≤ 60) :
    (List.Chain' (· ≤ ·) (cooldownDurations ⟨u, s⟩ ts)
      ∧ ∀ d ∈ cooldownDurations ⟨u, s⟩ ts, d ≤ 60)
    ∧ (∀ (u2 : ℚ) (ts2 : List ℚ),
        cooldownDurations ⟨u2, 10⟩ ts2
          = (List.range ts2.length).map (fun i => min (10 + 10 * i) 60))
    ∧ (∀ (g2 : GlobalCooldown) (now st t : ℚ),
        10 ≤ g2.cooldown_step → 60 < now - st →
        (trigger_cooldown (stabilityReset g2 now st) t).2 = 10) := by
  refine ⟨cooldownDurations_monotone_capped ts u s hstep, ?_, ?_⟩
  · intro u2 ts2
    exact cooldownDurations_closed ts2 u2 10 (by omega)
  · intro g2 now st t hbase hstable
    unfold stabilityReset trigger_cooldown
    by_cases hgt : 10 < g2.cooldown_step
    · simp [hstable, hgt]
    · have : g2.cooldown_step = 10 := by omega
      simp [this]

/-- Witness for `cooldown_backoff_additive_capped`: three consecutive
failures from the base state sleep 10 s, 20 s, 30 s; a reset after 100 s
of stability brings a stepped-up state back to a 10 s cooldown. -/
theorem cooldown_backoff_additive_capped_witness :
    cooldownDurations ⟨0, 10⟩ [0, 0, 0] = [10, 20, 30]
    ∧ (trigger_cooldown (stabilityReset ⟨0, 30⟩ 100 0) 100).2 = 10 := by
  have h := cooldown_backoff_additive_capped 0 10 [0, 0, 0] (by omega)
  refine ⟨?_, h.2.2 ⟨0, 30⟩ 100 0 100 (by decide) (by norm_num)⟩
  rw [h.2.1 0 [0, 0, 0]]
  decide

/-- C8 counterexample: on a streamer with both pipe writers and a live
child (pid 7), `stop` closes the video pipe, then the audio pipe, and
only then terminates the child — the process-termination step comes
last, not first, contradicting the claimed teardown order. -/
theorem stop_order_cex :
    (stop ⟨"cam1", some ⟨true, true, false⟩, some ⟨false, true, false⟩,
        some 7, false, ⟨0, 0, 0⟩⟩).2
      = [TeardownAct.closeVideoPipe, TeardownAct.closeAudioPipe,
          TeardownAct.terminateProc 7]
    ∧ ¬ ((stop ⟨"cam1", some ⟨true, true, false⟩,
            some ⟨false, true, false⟩, some 7, false, ⟨0, 0, 0⟩⟩).2.indexOf
              (TeardownAct.terminateProc 7)
          < (stop ⟨"cam1", some ⟨true, true, false⟩,
            some ⟨false, true, false⟩, some 7, false, ⟨0, 0, 0⟩⟩).2.indexOf
              TeardownAct.closeVideoPipe) := by
  refine ⟨by decide, by decide⟩

/-- C8 amended: in every teardown the `stop` trace is some pipe-close
actions followed by process-termination actions — pipes first, process
second; with both writers and a tracked child present the trace is
exactly close-video, close-audio, terminate. -/
theorem stop_closes_pipes_then_process :
    (∀ inst : StreamerInst, ∃ cl tm,
      (stop inst).2 = cl ++ tm
      ∧ (∀ a ∈ cl, a = TeardownAct.closeVideoPipe
          ∨ a = TeardownAct.closeAudioPipe)
      ∧ (∀ a ∈ tm, ∃ p, a = TeardownAct.terminateProc p))
    ∧ (∀ (inst : StreamerInst) (p : Nat),
        inst.video_writer.isSome → inst.audio_writer.isSome →
        inst.process = some p →
        (stop inst).2 = [TeardownAct.closeVideoPipe,
          TeardownAct.closeAudioPipe, TeardownAct.terminateProc p]) := by
  constructor
  · intro inst
    refine ⟨(match inst.video_writer with
              | some _ => [TeardownAct.closeVideoPipe]
              | none => []) ++
            (match inst.audio_writer with
              | some _ => [TeardownAct.closeAudioPipe]
              | none => []),
            (match inst.process with
              | some p => [TeardownAct.terminateProc p]
              | none => []), ?_, ?_, ?_⟩
    · simp [stop]
    · intro a hamem
      rcases hv : inst.video_writer with _ | w1 <;>
        rcases ha : inst.audio_writer with _ | w2 <;>
        rw [hv, ha] at hamem <;> simp at hamem <;> tauto
    · intro a hamem
      rcases hp : inst.process with _ | p <;> rw [hp] at hamem <;>
        simp at hamem
      exact ⟨p, hamem⟩
  · intro inst p hv ha hp
    rcases Option.isSome_iff_exists.mp hv with ⟨w1, hw1⟩
    rcases Option.isSome_iff_exists.mp ha with ⟨w2, hw2⟩
    simp [stop, hw1, hw2, hp]

/-- Witness for `stop_closes_pipes_then_process` at a concrete
instance with pid 9. -/
theorem stop_closes_pipes_then_process_witness :
    (stop ⟨"cam2", some ⟨true, true, false⟩, some ⟨false, true, false⟩,
        some 9, false, ⟨0, 0, 0⟩⟩).2
      = [TeardownAct.closeVideoPipe, TeardownAct.closeAudioPipe,
          TeardownAct.terminateProc 9] :=
  stop_closes_pipes_then_process.2
    ⟨"cam2", some ⟨true, true, false⟩, some ⟨false, true, false⟩,
      some 9, false, ⟨0, 0, 0⟩⟩ 9 rfl rfl rfl

/-- C7: a `start` while the global cooldown has not expired, or while
another start holds the class-level start lock, performs no action —
the instance and global state are returned unchanged and no child is
spawned; and when call A has passed the guard (taking the lock) a
second call B made while A is in flight is a no-op, so A and B together
leave exactly one live child process. -/
theorem start_idempotent_guard :
    (∀ (inst : StreamerInst) (g : GlobalState) (now : ℚ),
      now < g.cooldown.cooldown_until →
      start inst g now = (inst, g, false))
    ∧ (∀ (inst : StreamerInst) (g : GlobalState) (now : ℚ),
        g.start_lock_held = true →
        start inst g now = (inst, g, false))
    ∧ (∀ (inst : StreamerInst) (g g1 : GlobalState) (now now2 : ℚ),
        inst.process = none → g.live = [] →
        start_guard g now = some g1 →
        start inst g1 now2 = (inst, g1, false)
        ∧ (start_body inst g1).2.live = [g.next_pid]) := by
  refine ⟨?_, ?_, ?_⟩
  · intro inst g now h
    simp [start, start_guard, h]
  · intro inst g now h
    unfold start start_guard
    by_cases hc : now < g.cooldown.cooldown_until
    · simp [hc]
    · simp [hc, h]
  · intro inst g g1 now now2 hp hl hg
    have hg1 : g1 = { g with start_lock_held := true } := by
      unfold start_guard at hg
      by_cases hc : now < g.cooldown.cooldown_until
      · simp [hc] at hg
      · by_cases hlh : g.start_lock_held
        · simp [hc, hlh] at hg
        · simp [hc, hlh] at hg
          exact hg.symm
    subst hg1
    constructor
    · unfold start start_guard
      by_cases hc2 : now2 <
          ({ g with start_lock_held := true } : GlobalState).cooldown.cooldown_until
      · simp [hc2]
      · simp [hc2]
    · simp [start_body, hp, hl]

/-- Witness for `start_idempotent_guard`: a concrete fresh streamer, a
free lock, an expired cooldown; the in-flight second call is a no-op
and the completed first call leaves exactly the one fresh pid live. -/
theorem start_idempotent_guard_witness :
    start ⟨"cam1", none, none, none, false, ⟨0, 0, 0⟩⟩
        ⟨⟨0, 10⟩, true, [], 100⟩ 5
      = (⟨"cam1", none, none, none, false, ⟨0, 0, 0⟩⟩,
          ⟨⟨0, 10⟩, true, [], 100⟩, false)
    ∧ (start_body ⟨"cam1", none, none, none, false, ⟨0, 0, 0⟩⟩
        ⟨⟨0, 10⟩, true, [], 100⟩).2.live = [100] := by
  have hg : start_guard ⟨⟨0, 10⟩, false, [], 100⟩ 5
      = some ⟨⟨0, 10⟩, true, [], 100⟩ := by
    norm_num [start_guard]
  exact start_idempotent_guard.2.2
    ⟨"cam1", none, none, none, false, ⟨0, 0, 0⟩⟩
    ⟨⟨0, 10⟩, false, [], 100⟩ ⟨⟨0, 10⟩, true, [], 100⟩ 5 5 rfl rfl hg

/-- C10: the cooldown deadline and backoff step are one process-wide
value shared by every streamer instance.  After any one camera's
monitor triggers the restart path, `start` on a streamer for any other
camera is a no-op until the single shared deadline passes; the new
deadline and step do not depend on which camera triggered; and a
stability reset observed on any camera resets the step that every
camera's next cooldown will use. -/
theorem global_cooldown_shared :
    (∀ (instA instB : StreamerInst) (g : GlobalState) (now t : ℚ),
      instA.camera_id ≠ instB.camera_id →
      t < ((trigger_global_restart instA g now).2).cooldown.cooldown_until →
      start instB (trigger_global_restart instA g now).2 t
        = (instB, (trigger_global_restart instA g now).2, false))
    ∧ (∀ (instA : StreamerInst) (g : GlobalState) (now : ℚ),
        ((trigger_global_restart instA g now).2).cooldown.cooldown_until
          = now + g.cooldown.cooldown_step
        ∧ ((trigger_global_restart instA g now).2).cooldown.cooldown_step
          = min (g.cooldown.cooldown_step + 10) 60)
    ∧ (∀ (g : GlobalState) (now st t : ℚ),
        10 ≤ g.cooldown.cooldown_step → 60 < now - st →
        (trigger_cooldown (stabilityReset g.cooldown now st) t).2 = 10) := by
  refine ⟨?_, ?_, ?_⟩
  · intro instA instB g now t _ ht
    simp [start, start_guard, ht]
  · intro instA g now
    constructor <;> simp [trigger_global_restart, trigger_cooldown]
  · intro g now st t hbase hstable
    unfold stabilityReset trigger_cooldown
    by_cases hgt : 10 < g.cooldown.cooldown_step
    · simp [hstable, hgt]
    · have h10 : g.cooldown.cooldown_step = 10 := by omega
      simp [h10]

/-- Witness for `global_cooldown_shared`: camera A triggers the
restart; a start for camera B 5 s later is rejected by the shared
cooldown. -/
theorem global_cooldown_shared_witness :
    start ⟨"camB", none, none, none, false, ⟨0, 0, 0⟩⟩
        (trigger_global_restart
          ⟨"camA", none, none, some 3, false, ⟨0, 0, 0⟩⟩
          ⟨⟨0, 10⟩, false, [3], 4⟩ 0).2 5
      = (⟨"camB", none, none, none, false, ⟨0, 0, 0⟩⟩,
          (trigger_global_restart
            ⟨"camA", none, none, some 3, false, ⟨0, 0, 0⟩⟩
            ⟨⟨0, 10⟩, false, [3], 4⟩ 0).2, false) := by
  apply global_cooldown_shared.1
  · decide
  · rw [(global_cooldown_shared.2.1
      ⟨"camA", none, none, some 3, false, ⟨0, 0, 0⟩⟩
      ⟨⟨0, 10⟩, false, [3], 4⟩ 0).1]
    norm_num

/-! ### Association-list lemmas -/

theorem lookup_setKey_self {κ ν : Type} [DecidableEq κ]
    (l : List (κ × ν)) (k : κ) (v : ν) :
    lookup (setKey l k v) k = some v := by
  induction l with
  | nil => simp [setKey, lookup]
  | cons kv rest ih =>
    obtain ⟨k1, v1⟩ := kv
    by_cases h : k1 = k
    · simp [setKey, lookup, h]
    · simp [setKey, lookup, h, ih]

theorem setKey_ne_nil {κ ν : Type} [DecidableEq κ]
    (l : List (κ × ν)) (k : κ) (v : ν) :
    setKey l k v ≠ [] := by
  cases l with
  | nil => simp [setKey]
  | cons kv rest =>
    obtain ⟨k1, v1⟩ := kv
    by_cases h : k1 = k <;> simp [setKey, h]

theorem startStream_not_mem_popOldest (key : CamKey) (l : ConnList) :
    StreamEvent.startStream key ∉ (popOldest l).2 := by
  cases l <;> simp [popOldest]

theorem startStream_not_mem_popEvents (key : CamKey) (l : ConnList)
    (c : Prop) [Decidable c] :
    StreamEvent.startStream key ∉ (if c then popOldest l else (l, [])).2 := by
  split_ifs
  · exact startStream_not_mem_popOldest key l
  · simp

/-- The connections registered for `(key, user)` after a
`new_connection`: the old list with the fresh connection appended, the
oldest entry dropped when the group exceeded the cap. -/
theorem new_connection_connsOf (m : VSManager) (ws : Nat) (u : UserKey)
    (key : CamKey) :
    connsOf (new_connection m ws u key).1 key u
      = (if CAMERA_CONNECT_COUNT_MAX <
            (connsOf m key u ++ [(m.camera_connect_id, ws)]).length
         then (popOldest (connsOf m key u ++ [(m.camera_connect_id, ws)])).1
         else connsOf m key u ++ [(m.camera_connect_id, ws)]) := by
  rcases hk : lookup m.camera_connect_map key with _ | umap
  · simp [new_connection, connsOf, hk, lookup_setKey_self, lookup,
      apply_ite Prod.fst]
  · cases umap with
    | nil => simp [new_connection, connsOf, hk, lookup_setKey_self, lookup,
        apply_ite Prod.fst]
    | cons e es => simp [new_connection, connsOf, hk, lookup_setKey_self,
        apply_ite Prod.fst]

/-- The events a `new_connection` emits: a stream start exactly when the
key had no live registration, then the eviction close if the user's
group overflowed. -/
theorem new_connection_events (m : VSManager) (ws : Nat) (u : UserKey)
    (key : CamKey) :
    (new_connection m ws u key).2.2
      = (if (lookup m.camera_connect_map key = none
            ∨ lookup m.camera_connect_map key = some [])
         then [StreamEvent.startStream key] else [])
        ++ (if CAMERA_CONNECT_COUNT_MAX <
              (connsOf m key u ++ [(m.camera_connect_id, ws)]).length
            then (popOldest (connsOf m key u
                    ++ [(m.camera_connect_id, ws)])).2
            else []) := by
  rcases hk : lookup m.camera_connect_map key with _ | umap
  · simp [new_connection, connsOf, hk, lookup_setKey_self, lookup,
      apply_ite Prod.snd]
  · cases umap with
    | nil => simp [new_connection, connsOf, hk, lookup_setKey_self, lookup,
        apply_ite Prod.snd]
    | cons e es => simp [new_connection, connsOf, hk, lookup_setKey_self,
        apply_ite Prod.snd]

/-- C3: a `new_connection` issues a physical stream-start request iff
nobody is registered under its `(camera, channel, quality)` key (so a
second viewer joining an existing key issues none), and a
`close_connection` issues a stream release iff it removes the key's
very last connection (so closing one of two viewers leaves the physical
stream alive). -/
theorem stream_start_stop_dedup (m : VSManager) (ws : Nat)
    (u u2 : UserKey) (key : CamKey) (cid : Nat) :
    (StreamEvent.startStream key ∈ (new_connection m ws u key).2.2 ↔
      (lookup m.camera_connect_map key = none
        ∨ lookup m.camera_connect_map key = some []))
    ∧ (StreamEvent.stopStream key ∈ (close_connection m u2 key cid).2 ↔
        ∃ umap conns w,
          lookup m.camera_connect_map key = some umap
          ∧ lookup umap u2 = some conns
          ∧ lookup conns cid = some w
          ∧ eraseKey conns cid = []
          ∧ eraseKey umap u2 = []) := by
  constructor
  · rw [new_connection_events]
    constructor
    · intro h
      rcases List.mem_append.mp h with h | h
      · by_cases hp : (lookup m.camera_connect_map key = none
            ∨ lookup m.camera_connect_map key = some [])
        · exact hp
        · rw [if_neg hp] at h
          cases h
      · exfalso
        revert h
        split_ifs with hcond
        · intro h
          exact startStream_not_mem_popOldest key _ h
        · intro h
          cases h
    · intro hp
      apply List.mem_append_left
      rw [if_pos hp]
      exact List.mem_singleton_self _
  · rcases hk : lookup m.camera_connect_map key with _ | umap
    · have hev : (close_connection m u2 key cid).2 = [] := by
        simp [close_connection, hk]
      rw [hev]
      simp only [List.not_mem_nil, false_iff, not_exists]
      intro u' c' w'
      rintro ⟨h1', _⟩
      cases h1'
    · rcases hu : lookup umap u2 with _ | conns
      · have hev : (close_connection m u2 key cid).2 = [] := by
          simp [close_connection, hk, hu]
        rw [hev]
        simp only [List.not_mem_nil, false_iff, not_exists]
        intro u' c' w'
        rintro ⟨h1', h2', _⟩
        injection h1' with he
        subst he
        rw [hu] at h2'
        cases h2'
      · rcases hc : lookup conns cid with _ | w
        · have hev : (close_connection m u2 key cid).2 = [] := by
            simp [close_connection, hk, hu, hc]
          rw [hev]
          simp only [List.not_mem_nil, false_iff, not_exists]
          intro u' c' w'
          rintro ⟨h1', h2', h3', _⟩
          injection h1' with he
          subst he
          rw [hu] at h2'
          injection h2' with he2
          subst he2
          rw [hc] at h3'
          cases h3'
        · by_cases h1 : (eraseKey conns cid).isEmpty = true
          · by_cases h2 : (eraseKey umap u2).isEmpty = true
            · have hev : (close_connection m u2 key cid).2
                  = [StreamEvent.closeWS w, StreamEvent.stopStream key] := by
                simp [close_connection, hk, hu, hc, h1, h2]
              rw [hev]
              constructor
              · intro _
                exact ⟨umap, conns, w, rfl, hu, hc,
                  List.isEmpty_iff.mp h1, List.isEmpty_iff.mp h2⟩
              · intro _
                simp
            · have h2b : (eraseKey umap u2).isEmpty = false := by
                rw [Bool.not_eq_true] at h2
                exact h2
              have hev : (close_connection m u2 key cid).2
                  = [StreamEvent.closeWS w] := by
                simp [close_connection, hk, hu, hc, h1, h2b]
              rw [hev]
              constructor
              · intro hmem
                simp at hmem
              · rintro ⟨u', c', w', h1', h2', h3', h4', h5'⟩
                injection h1' with he
                subst he
                exact absurd (List.isEmpty_iff.mpr h5') h2
          · have h1b : (eraseKey conns cid).isEmpty = false := by
              rw [Bool.not_eq_true] at h1
              exact h1
            have h3 : (setKey umap u2 (eraseKey conns cid)).isEmpty
                = false := by
              rcases hsk : setKey umap u2 (eraseKey conns cid) with _ | ⟨hd, tl⟩
              · exact absurd hsk (setKey_ne_nil umap u2 (eraseKey conns cid))
              · rfl
            have hev : (close_connection m u2 key cid).2
                = [StreamEvent.closeWS w] := by
              simp [close_connection, hk, hu, hc, h1b, h3]
            rw [hev]
            constructor
            · intro hmem
              simp at hmem
            · rintro ⟨u', c', w', h1', h2', h3', h4', h5'⟩
              injection h1' with he
              subst he
              rw [hu] at h2'
              injection h2' with he2
              subst he2
              rw [h4'] at h1b
              cases h1b

/-- C9 amended: the connection cap is enforced per `(user_tag,
camera_id, channel, video_quality)` group — the code's `camera_tag`
includes the quality and the `user_tag` includes the token hash — with
at most `CAMERA_CONNECT_COUNT_MAX` (4) entries per group and FIFO
eviction: a fifth subscription in the same group evicts the group's
first-inserted handle, closing its socket, and leaves the four newest. -/
theorem per_group_cap_fifo (m : VSManager) (ws : Nat) (u : UserKey)
    (key : CamKey) :
    ((connsOf m key u).length ≤ CAMERA_CONNECT_COUNT_MAX →
      (connsOf (new_connection m ws u key).1 key u).length
        ≤ CAMERA_CONNECT_COUNT_MAX)
    ∧ ((connsOf m key u).length = CAMERA_CONNECT_COUNT_MAX →
        ∃ c0 rest, connsOf m key u = c0 :: rest
          ∧ connsOf (new_connection m ws u key).1 key u
              = rest ++ [(m.camera_connect_id, ws)]
          ∧ StreamEvent.closeWS c0.2 ∈ (new_connection m ws u key).2.2) := by
  constructor
  · intro hle
    rw [new_connection_connsOf]
    by_cases hcond : CAMERA_CONNECT_COUNT_MAX <
        (connsOf m key u ++ [(m.camera_connect_id, ws)]).length
    · rw [if_pos hcond]
      cases hcc : connsOf m key u with
      | nil =>
        rw [hcc] at hcond
        simp [CAMERA_CONNECT_COUNT_MAX] at hcond
      | cons c0 rest =>
        rw [hcc] at hle
        simp only [List.length_cons, CAMERA_CONNECT_COUNT_MAX] at hle
        simp [popOldest, CAMERA_CONNECT_COUNT_MAX]
        omega
    · rw [if_neg hcond]
      simp only [List.length_append, List.length_singleton,
        CAMERA_CONNECT_COUNT_MAX, not_lt] at hcond ⊢
      omega
  · intro heq
    rcases hcc : connsOf m key u with _ | ⟨c0, rest⟩
    · rw [hcc] at heq
      simp [CAMERA_CONNECT_COUNT_MAX] at heq
    · rw [hcc] at heq
      simp only [List.length_cons, CAMERA_CONNECT_COUNT_MAX] at heq
      have hlen : rest.length = 3 := by omega
      have hc4 : CAMERA_CONNECT_COUNT_MAX <
          ((c0 :: rest) ++ [(m.camera_connect_id, ws)]).length := by
        simp [CAMERA_CONNECT_COUNT_MAX]
        omega
      refine ⟨c0, rest, rfl, ?_, ?_⟩
      · rw [new_connection_connsOf, hcc, if_pos hc4]
        simp [popOldest]
      · rw [new_connection_events]
        apply List.mem_append_right
        rw [hcc, if_pos hc4]
        simp [popOldest]

/-- C9 counterexample: with four live connections for `(user, cam,
channel 0, quality 1)`, a fifth subscription by the same user for the
same camera and channel but quality 2 opens a new group: the user then
holds five live handles for the `(user, camera, channel)` triple and
the fifth call closes no socket (its only event is the stream start for
the new key), refuting the claimed at-most-4 invariant per triple. -/
theorem per_user_cap_cex :
    liveForTriple (new_connection c9Four 14 hubUser hubKeyQ2).1
        hubUser "cam" 0 = 5
    ∧ (new_connection c9Four 14 hubUser hubKeyQ2).2.2
        = [StreamEvent.startStream hubKeyQ2] := by
  refine ⟨by decide, by decide⟩

/-- Witness for `per_group_cap_fifo`: the fifth same-group subscription
(quality 1 again) evicts the first-inserted handle. -/
theorem per_group_cap_fifo_witness :
    ∃ c0 rest, connsOf c9Four hubKeyQ1 hubUser = c0 :: rest
      ∧ connsOf (new_connection c9Four 14 hubUser hubKeyQ1).1 hubKeyQ1
          hubUser = rest ++ [(c9Four.camera_connect_id, 14)]
      ∧ StreamEvent.closeWS c0.2
          ∈ (new_connection c9Four 14 hubUser hubKeyQ1).2.2 :=
  (per_group_cap_fifo c9Four 14 hubUser hubKeyQ1).2 (by decide)

end Miloco